/-
Verification of the download-organizer repository.

Shallow embedding of `organizer.py` and `watch_downloads.py`:
strings are lists of characters, filesystem paths are lists of path
components, the filesystem is an explicit record of existing file and
directory paths, and the fallible filesystem primitives (mkdir, move,
stability sampling) are supplied by an environment record so that the
error-handling structure of the code can be stated and proved.
-/
import Mathlib

namespace Py

/-- A filesystem path, as its list of components (pathlib `Path`).
The last component is the name; the rest is the parent directory. -/
abbrev Path := List (List Char)

/-- The final component of a path (pathlib `Path.name`). -/
def name (p : Path) : List Char := p.getLast?.getD []

/-- The parent directory of a path (pathlib `Path.parent`). -/
def parent (p : Path) : Path := p.dropLast

/-- `parent / child` (pathlib `/` operator). -/
def join (p : Path) (child : List Char) : Path := p ++ [child]

/-- ASCII lowercasing of one character (Python `str.lower`, restricted to
the ASCII range that file extensions use). -/
def lowerChar (c : Char) : Char :=
  if 'A' ≤ c ∧ c ≤ 'Z' then Char.ofNat (c.toNat + 32) else c

/-- Python `str.lower` on a whole string. -/
def lower (s : List Char) : List Char := s.map lowerChar

/-- Index of the last '.' in a name (Python `str.rfind('.')`), if any. -/
def lastDotIdx (s : List Char) : Option Nat :=
  match s.reverse.findIdx? (fun c => c == '.') with
  | none => none
  | some j => some (s.length - 1 - j)

/-- pathlib `Path.suffix` of a name: the part from the last dot on,
empty unless the dot is at an interior position `0 < i < len - 1`. -/
def suffixOf (s : List Char) : List Char :=
  match lastDotIdx s with
  | some i => if 0 < i ∧ i < s.length - 1 then s.drop i else []
  | none => []

/-- pathlib `Path.stem` of a name: the part before the suffix. -/
def stemOf (s : List Char) : List Char :=
  match lastDotIdx s with
  | some i => if 0 < i ∧ i < s.length - 1 then s.take i else s
  | none => s

/-- The decimal digit characters, for rendering a counter. -/
def digitChar : Nat → Char
  | 0 => '0' | 1 => '1' | 2 => '2' | 3 => '3' | 4 => '4'
  | 5 => '5' | 6 => '6' | 7 => '7' | 8 => '8' | _ => '9'

/-- Numeric value of a digit character (used only in proofs, as a left
inverse of `digitChar`). -/
def charVal (c : Char) : Nat := c.toNat - 48

/-- Fuelled most-significant-first decimal rendering. -/
def reprAux : Nat → Nat → List Char
  | 0, _ => []
  | fuel + 1, n =>
    if n = 0 then [] else reprAux fuel (n / 10) ++ [digitChar (n % 10)]

/-- Decimal rendering of a natural number (Python `f"{n}"`). -/
def natRepr (n : Nat) : List Char :=
  if n = 0 then ['0'] else reprAux n n

/-- Parse a digit string back to a number (proof-side inverse). -/
def parseNat (s : List Char) : Nat :=
  s.foldl (fun a c => 10 * a + charVal c) 0

theorem charVal_digitChar {d : Nat} (h : d < 10) : charVal (digitChar d) = d := by
  interval_cases d <;> rfl

theorem parseNat_append_digit (s : List Char) (c : Char) :
    parseNat (s ++ [c]) = 10 * parseNat s + charVal c := by
  have h : ∀ (a : Nat), (s ++ [c]).foldl (fun a c => 10 * a + charVal c) a =
      10 * (s.foldl (fun a c => 10 * a + charVal c) a) + charVal c := by
    intro a
    rw [List.foldl_append]
    rfl
  exact h 0

theorem parseNat_reprAux : ∀ fuel n, n ≤ fuel → parseNat (reprAux fuel n) = n := by
  intro fuel
  induction fuel with
  | zero => intro n h; interval_cases n; rfl
  | succ f ih =>
    intro n h
    by_cases h0 : n = 0
    · subst h0; rfl
    · have hdiv : n / 10 ≤ f := by
        have : n / 10 < n := Nat.div_lt_self (Nat.pos_of_ne_zero h0) (by norm_num)
        omega
      have hmod : n % 10 < 10 := Nat.mod_lt _ (by norm_num)
      simp only [reprAux, h0, if_false]
      rw [parseNat_append_digit, ih _ hdiv, charVal_digitChar hmod]
      omega

theorem parseNat_natRepr (n : Nat) : parseNat (natRepr n) = n := by
  by_cases h0 : n = 0
  · subst h0; rfl
  · simp only [natRepr, h0, if_false]
    exact parseNat_reprAux n n le_rfl

theorem natRepr_injective : Function.Injective natRepr := by
  intro a b h
  have := congrArg parseNat h
  rwa [parseNat_natRepr, parseNat_natRepr] at this

end Py

namespace Organizer

/-- One entry of the `file_types` table (`extensions` defaults to the
empty list, `destination` defaults to the category name at use sites,
mirroring `info.get('extensions', [])` / `info.get('destination', ...)`). -/
structure CategoryInfo where
  extensions : List (List Char)
  destination : Option (List Char)
deriving DecidableEq

/-- The `settings` section of the configuration, with the defaults the
code applies via `.get(key, default)` already folded in. -/
structure Settings where
  dry_run : Bool
  create_directories : Bool
  handle_conflicts : Bool
  skip_hidden_files : Bool
deriving DecidableEq

/-- The configuration object, restricted to the fields the organizer
reads.  `file_types` is an ordered association list: Python dicts
preserve insertion order, which is the table's declared order. -/
structure Config where
  file_types : List (List Char × CategoryInfo)
  base_destination : Py.Path
  other_destination : List Char
  settings : Settings
deriving DecidableEq

/-- `OrganizationStats`: the mutable statistics record.  `categories`
is a `defaultdict(int)`, modelled as an insertion-ordered association
list. -/
structure OrganizationStats where
  files_moved : Nat
  folders_moved : Nat
  errors : Nat
  skipped : Nat
  conflicts_resolved : Nat
  categories : List (List Char × Nat)
deriving DecidableEq

/-- `self.stats.categories[category] += 1` on a `defaultdict(int)`. -/
def bumpCategory : List (List Char × Nat) → List Char → List (List Char × Nat)
  | [], k => [(k, 1)]
  | (k', n) :: rest, k =>
    if k' = k then (k', n + 1) :: rest else (k', n) :: bumpCategory rest k

/-- The filesystem state: the set of existing file paths and existing
directory paths. -/
structure FS where
  files : List Py.Path
  dirs : List Py.Path
deriving DecidableEq

/-- `Path.exists()` — true for files and directories alike. -/
def exists_in (fs : FS) (p : Py.Path) : Bool :=
  decide (p ∈ fs.files ∨ p ∈ fs.dirs)

/-- All existing paths, for the existence probes of the conflict
resolver. -/
def all_paths (fs : FS) : List Py.Path := fs.files ++ fs.dirs

/-- The exception kinds distinguished by `_move_file`'s handlers:
`PermissionError`, `shutil.Error`, and any other `Exception`. -/
inductive MoveExc where
  | permissionError
  | shutilError
  | otherError
deriving DecidableEq

/-- The environment supplying the outcomes of the fallible filesystem
primitives: whether `mkdir` raises, whether `shutil.move` raises, and
the watch-mode size-stability sampling verdict. -/
structure Env where
  mkdirExc : Py.Path → Option MoveExc
  moveExc : Py.Path → Py.Path → Option MoveExc
  fileStable : Py.Path → Bool

/-- `file_path.suffix.lower()` — the lowercased extension the
classifier compares. -/
def file_extension (file_path : Py.Path) : List Char :=
  Py.lower (Py.suffixOf (Py.name file_path))

/-- The `for category, info in file_types.items()` loop of
`_get_destination_for_file`: the first table entry whose `extensions`
list contains the (already lowercased) extension. -/
def find_match (extension : List Char) :
    List (List Char × CategoryInfo) → Option (List Char × CategoryInfo)
  | [] => none
  | (category, info) :: rest =>
    if extension ∈ info.extensions then some (category, info)
    else find_match extension rest

/-- `_get_destination_for_file`: classify a file, bump the per-category
counter, and return the destination folder (never `None`: the fallback
bucket `other` always applies). -/
def get_destination_for_file (cfg : Config) (stats : OrganizationStats)
    (file_path : Py.Path) : OrganizationStats × Py.Path :=
  let extension := file_extension file_path
  match find_match extension cfg.file_types with
  | some (category, info) =>
    ({ stats with categories := bumpCategory stats.categories category },
     Py.join cfg.base_destination (info.destination.getD category))
  | none =>
    ({ stats with categories := bumpCategory stats.categories "other".data },
     Py.join cfg.base_destination cfg.other_destination)

/-- The probe name `f"{stem}_{counter}{suffix}"`. -/
def candName (stem sfx : List Char) (k : Nat) : List Char :=
  stem ++ '_' :: (Py.natRepr k ++ sfx)

/-- The probe path `parent / f"{stem}_{counter}{suffix}"`. -/
def candPath (par : Py.Path) (stem sfx : List Char) (k : Nat) : Py.Path :=
  Py.join par (candName stem sfx k)

/-- The `while dest_path.exists()` loop of `_resolve_conflict`,
fuelled; the fuel used by `resolve_conflict` provably never runs out. -/
def resolve_loop (fs : List Py.Path) (par : Py.Path) (stem sfx : List Char) :
    Py.Path → Nat → Nat → Py.Path
  | dest_path, _, 0 => dest_path
  | dest_path, counter, fuel + 1 =>
    if dest_path ∈ fs then
      resolve_loop fs par stem sfx (candPath par stem sfx counter) (counter + 1) fuel
    else dest_path

/-- `_resolve_conflict`, over the list of currently existing paths. -/
def resolve_conflict (fs : List Py.Path) (stats : OrganizationStats)
    (dest_path : Py.Path) : OrganizationStats × Py.Path :=
  if dest_path ∉ fs then (stats, dest_path)
  else
    ({ stats with conflicts_resolved := stats.conflicts_resolved + 1 },
     resolve_loop fs (Py.parent dest_path) (Py.stemOf (Py.name dest_path))
       (Py.suffixOf (Py.name dest_path)) dest_path 1 (fs.length + 2))

/-- `_should_skip_file`: hidden (dot-prefixed) names, when enabled. -/
def should_skip_file (cfg : Config) (file_path : Py.Path) : Bool :=
  cfg.settings.skip_hidden_files && ((Py.name file_path).head? == some '.')

/-- `mkdir(parents=True, exist_ok=True)` on the directory list. -/
def insert_path (p : Py.Path) (l : List Py.Path) : List Py.Path :=
  if p ∈ l then l else p :: l

/-- The part of `_move_file`'s `try` block after directory creation:
build `destination_folder / source.name`, resolve conflicts if enabled,
then either log only (dry run) or perform the move via the environment,
with the `except` handlers turning any raise into `errors += 1` and
`False`. -/
def move_file_rest (env : Env) (cfg : Config) (fs : FS)
    (stats : OrganizationStats) (source destination_folder : Py.Path)
    (dry_run : Bool) : FS × OrganizationStats × Bool :=
  let dest0 := Py.join destination_folder (Py.name source)
  let resolved :=
    if cfg.settings.handle_conflicts then resolve_conflict (all_paths fs) stats dest0
    else (stats, dest0)
  if dry_run then
    (fs, { resolved.1 with files_moved := resolved.1.files_moved + 1 }, true)
  else
    match env.moveExc source resolved.2 with
    | some _ => (fs, { resolved.1 with errors := resolved.1.errors + 1 }, false)
    | none =>
      ({ fs with files := fs.files.erase source ++ [resolved.2] },
       { resolved.1 with files_moved := resolved.1.files_moved + 1 }, true)

/-- `_move_file`: directory creation (live mode only, when enabled,
and a raise there is caught like any other), then `move_file_rest`. -/
def move_file (env : Env) (cfg : Config) (fs : FS) (stats : OrganizationStats)
    (source destination_folder : Py.Path) (dry_run : Bool) :
    FS × OrganizationStats × Bool :=
  if cfg.settings.create_directories && !dry_run then
    match env.mkdirExc destination_folder with
    | some _ => (fs, { stats with errors := stats.errors + 1 }, false)
    | none =>
      move_file_rest env cfg { fs with dirs := insert_path destination_folder fs.dirs }
        stats source destination_folder dry_run
  else move_file_rest env cfg fs stats source destination_folder dry_run

/-- Specification helper: the exception (if any) that a `move_file`
call encounters on the branch it actually executes, mirroring the
branch structure of `move_file`. -/
def move_rest_exc (env : Env) (cfg : Config) (fs : FS)
    (stats : OrganizationStats) (source destination_folder : Py.Path)
    (dry_run : Bool) : Option MoveExc :=
  if dry_run then none
  else
    let dest0 := Py.join destination_folder (Py.name source)
    let resolved :=
      if cfg.settings.handle_conflicts then resolve_conflict (all_paths fs) stats dest0
      else (stats, dest0)
    env.moveExc source resolved.2

/-- Specification helper: the exception (if any) encountered by a full
`move_file` call. -/
def move_attempt_exc (env : Env) (cfg : Config) (fs : FS)
    (stats : OrganizationStats) (source destination_folder : Py.Path)
    (dry_run : Bool) : Option MoveExc :=
  if cfg.settings.create_directories && !dry_run then
    match env.mkdirExc destination_folder with
    | some e => some e
    | none =>
      move_rest_exc env cfg { fs with dirs := insert_path destination_folder fs.dirs }
        stats source destination_folder dry_run
  else move_rest_exc env cfg fs stats source destination_folder dry_run

/-- One directory entry of the snapshot `source_dir.iterdir()` takes. -/
structure Entry where
  path : Py.Path
  isFile : Bool
deriving DecidableEq

/-- `organize_files`: the files pass over a directory snapshot — skip
hidden entries, classify, move; directory entries are ignored by this
pass. -/
def organize_files (env : Env) (cfg : Config) :
    List Entry → FS → OrganizationStats → Bool → FS × OrganizationStats
  | [], fs, stats, _ => (fs, stats)
  | item :: rest, fs, stats, dry_run =>
    if item.isFile then
      if should_skip_file cfg item.path then
        organize_files env cfg rest fs { stats with skipped := stats.skipped + 1 } dry_run
      else
        let r1 := get_destination_for_file cfg stats item.path
        let r2 := move_file env cfg fs r1.1 item.path r1.2 dry_run
        organize_files env cfg rest r2.1 r2.2.1 dry_run
    else organize_files env cfg rest fs stats dry_run

/-- Python's `'needle' in haystack` substring test. -/
def containsSub (needle : List Char) : List Char → Bool
  | [] => needle.isEmpty
  | c :: rest => needle.isPrefixOf (c :: rest) || containsSub needle rest

/-- The derivation of the compressed-extension set in
`_is_compressed_folder`: union of the `extensions` of every category
whose `destination` (default `''`) contains the word "compressed",
case-insensitively. -/
def compressed_extensions (cfg : Config) : List (List Char) :=
  cfg.file_types.foldl
    (fun acc ci =>
      if containsSub "compressed".data (Py.lower (ci.2.destination.getD [])) then
        acc ++ ci.2.extensions
      else acc) []

/-- `_is_compressed_folder`, applied to the folder's name and to the
list of entries its recursive `rglob('*')` scan yields before either
completing or being interrupted by a traversal error (on a traversal
error the code logs a warning, stops scanning, and falls through to
`return False`). -/
def is_compressed_folder (cfg : Config) (folder_name : List Char)
    (scanned : List Entry) : Bool :=
  let exts := compressed_extensions cfg
  if Py.lower (Py.suffixOf folder_name) ∈ exts then true
  else
    scanned.any (fun item =>
      item.isFile && decide (Py.lower (Py.suffixOf (Py.name item.path)) ∈ exts))

/-- `main` (organizer.py): `dry_run = args.dry_run or
config['settings'].get('dry_run', False)` — the effective dry-run flag
of a batch run. -/
def main_effective_dry_run (args_dry_run : Bool) (cfg : Config) : Bool :=
  args_dry_run || cfg.settings.dry_run

end Organizer

namespace Watch

/-- The state a `DownloadEventHandler` acts on: the filesystem, the
organizer's statistics record, and the Processing Set. -/
structure WatchState where
  fs : Organizer.FS
  stats : Organizer.OrganizationStats
  processing : List Py.Path

/-- `_is_temporary_file`: partial-download extensions and temporary
name markers. -/
def is_temporary_file (file_path : Py.Path) : Bool :=
  decide (Py.lower (Py.suffixOf (Py.name file_path)) ∈
    [".crdownload".data, ".tmp".data, ".part".data, ".download".data])
  || ((Py.name file_path).head? == some '~')
  || ((Py.name file_path).head? == some '.')

/-- `_organize_file` (watch_downloads.py): skip-check, classify, and
move a single file with `dry_run=False`; its `try`/`except` means it
never raises, and it never touches the Processing Set. -/
def organize_file (env : Organizer.Env) (cfg : Organizer.Config)
    (st : WatchState) (file_path : Py.Path) : WatchState :=
  if !Organizer.exists_in st.fs file_path then st
  else if Organizer.should_skip_file cfg file_path then st
  else
    let r1 := Organizer.get_destination_for_file cfg st.stats file_path
    let r2 := Organizer.move_file env cfg st.fs r1.1 file_path r1.2 false
    { st with fs := r2.1, stats := r2.2.1 }

/-- The two event kinds the handler subscribes to. -/
inductive EventKind where
  | created
  | modified

/-- A filesystem event as delivered by the watchdog observer. -/
structure Event where
  kind : EventKind
  src_path : Py.Path
  is_directory : Bool

/-- `on_created`: guard against directories, temporary files and paths
already in the Processing Set; then add to the set, organize, and
discard in a `finally`. -/
def on_created (env : Organizer.Env) (cfg : Organizer.Config)
    (st : WatchState) (event : Event) : WatchState :=
  if event.is_directory then st
  else if is_temporary_file event.src_path then st
  else if event.src_path ∈ st.processing then st
  else
    let st1 := { st with processing := event.src_path :: st.processing }
    let st2 := organize_file env cfg st1 event.src_path
    { st2 with processing := st2.processing.erase event.src_path }

/-- `on_modified`: same guards plus the existence and size-stability
checks, then the same add/organize/discard sequence. -/
def on_modified (env : Organizer.Env) (cfg : Organizer.Config)
    (st : WatchState) (event : Event) : WatchState :=
  if event.is_directory then st
  else if is_temporary_file event.src_path then st
  else if !Organizer.exists_in st.fs event.src_path then st
  else if env.fileStable event.src_path then
    if event.src_path ∈ st.processing then st
    else
      let st1 := { st with processing := event.src_path :: st.processing }
      let st2 := organize_file env cfg st1 event.src_path
      { st2 with processing := st2.processing.erase event.src_path }
  else st

/-- Dispatch one delivered event to its handler. -/
def handle_event (env : Organizer.Env) (cfg : Organizer.Config)
    (st : WatchState) (event : Event) : WatchState :=
  match event.kind with
  | .created => on_created env cfg st event
  | .modified => on_modified env cfg st event

/-- Override only the `dry_run` toggle of the settings section. -/
def set_dry_run (cfg : Organizer.Config) (b : Bool) : Organizer.Config :=
  { cfg with settings := { cfg.settings with dry_run := b } }

end Watch

namespace Organizer

theorem candName_injective (stem sfx : List Char) :
    Function.Injective (candName stem sfx) := by
  intro a b h
  unfold candName at h
  have h1 := List.append_cancel_left h
  have h2 : Py.natRepr a ++ sfx = Py.natRepr b ++ sfx := by
    injection h1
  exact Py.natRepr_injective (List.append_cancel_right h2)

theorem candPath_injective (par : Py.Path) (stem sfx : List Char) :
    Function.Injective (candPath par stem sfx) := by
  intro a b h
  unfold candPath Py.join at h
  have h1 := List.append_cancel_left h
  exact candName_injective stem sfx (List.singleton_injective h1)

/-- Pigeonhole: among the first `fs.length + 1` probe names, at least
one is not an existing path. -/
theorem exists_free_probe (fs : List Py.Path) (par : Py.Path) (stem sfx : List Char) :
    ∃ k, 1 ≤ k ∧ k ≤ fs.length + 1 ∧ candPath par stem sfx k ∉ fs := by
  classical
  by_contra hc
  push_neg at hc
  have hsub : (Finset.Icc 1 (fs.length + 1)).image (candPath par stem sfx) ⊆ fs.toFinset := by
    intro x hx
    simp only [Finset.mem_image, Finset.mem_Icc] at hx
    obtain ⟨k, ⟨h1, h2⟩, rfl⟩ := hx
    exact List.mem_toFinset.mpr (hc k h1 h2)
  have hcard : ((Finset.Icc 1 (fs.length + 1)).image (candPath par stem sfx)).card
      = fs.length + 1 := by
    rw [Finset.card_image_of_injective _ (candPath_injective par stem sfx), Nat.card_Icc]
    omega
  have h1 := Finset.card_le_card hsub
  have h2 := fs.toFinset_card_le
  omega

theorem resolve_loop_notMem (fs : List Py.Path) (par : Py.Path) (stem sfx : List Char)
    (d : Py.Path) (c fuel : Nat) (hd : d ∉ fs) :
    resolve_loop fs par stem sfx d c fuel = d := by
  cases fuel with
  | zero => rfl
  | succ f => simp [resolve_loop, hd]

/-- Loop invariant for `resolve_loop`: starting the probe at counter
`c` on an existing path, with enough fuel to reach a free probe name,
the loop returns the first free probe name at index at least `c`. -/
theorem resolve_loop_spec (fs : List Py.Path) (par : Py.Path) (stem sfx : List Char) :
    ∀ fuel c d, d ∈ fs →
    (∃ k, c ≤ k ∧ k < c + fuel ∧ candPath par stem sfx k ∉ fs) →
    ∃ m, c ≤ m ∧ candPath par stem sfx m ∉ fs ∧
      (∀ j, c ≤ j → j < m → candPath par stem sfx j ∈ fs) ∧
      resolve_loop fs par stem sfx d c fuel = candPath par stem sfx m := by
  intro fuel
  induction fuel with
  | zero =>
    intro c d _ hex
    obtain ⟨k, h1, h2, _⟩ := hex
    omega
  | succ f ih =>
    intro c d hd hex
    simp only [resolve_loop, if_pos hd]
    by_cases hc : candPath par stem sfx c ∈ fs
    · obtain ⟨k, hk1, hk2, hk3⟩ := hex
      have hkc : k ≠ c := fun h => hk3 (h ▸ hc)
      obtain ⟨m, hm1, hm2, hm3, hm4⟩ :=
        ih (c + 1) _ hc ⟨k, by omega, by omega, hk3⟩
      refine ⟨m, by omega, hm2, fun j hj1 hj2 => ?_, hm4⟩
      rcases Nat.eq_or_lt_of_le hj1 with h | h
      · exact h ▸ hc
      · exact hm3 j (by omega) hj2
    · refine ⟨c, le_rfl, hc, fun j hj1 hj2 => (Nat.not_lt.mpr hj1 hj2).elim, ?_⟩
      exact resolve_loop_notMem fs par stem sfx _ _ f hc

/-- The probe path `f"{stem}_{k}{suffix}"` built from a desired
destination path, as `_resolve_conflict` builds it. -/
def probe_of (dest_path : Py.Path) (k : Nat) : Py.Path :=
  candPath (Py.parent dest_path) (Py.stemOf (Py.name dest_path))
    (Py.suffixOf (Py.name dest_path)) k

/-- An all-zero statistics record, for concrete instances. -/
def stats0 : OrganizationStats := ⟨0, 0, 0, 0, 0, []⟩

/-- Characterization of `resolve_conflict` on an existing destination:
it returns the first free probe path and bumps the counter once. -/
theorem resolve_conflict_mem_char (fs : List Py.Path) (stats : OrganizationStats)
    (dest_path : Py.Path) (h : dest_path ∈ fs) :
    ∃ N, 1 ≤ N ∧
      resolve_conflict fs stats dest_path =
        ({ stats with conflicts_resolved := stats.conflicts_resolved + 1 },
         probe_of dest_path N) ∧
      probe_of dest_path N ∉ fs ∧
      (∀ j, 1 ≤ j → j < N → probe_of dest_path j ∈ fs) := by
  obtain ⟨k, hk1, hk2, hk3⟩ :=
    exists_free_probe fs (Py.parent dest_path) (Py.stemOf (Py.name dest_path))
      (Py.suffixOf (Py.name dest_path))
  obtain ⟨m, hm1, hm2, hm3, hm4⟩ :=
    resolve_loop_spec fs (Py.parent dest_path) (Py.stemOf (Py.name dest_path))
      (Py.suffixOf (Py.name dest_path)) (fs.length + 2) 1 dest_path h
      ⟨k, hk1, by omega, hk3⟩
  refine ⟨m, hm1, ?_, hm2, hm3⟩
  simp [resolve_conflict, h, hm4, probe_of]

/-- Claim C1: if the desired destination path does not exist the
conflict resolver returns it unchanged without touching the
conflicts-resolved counter; if it exists, the resolver returns the
first probe path `{stem}_{N}{extension}` (N = 1, 2, ... in increasing
order) that does not exist, and increments the conflicts-resolved
counter by exactly one for the whole call. -/
theorem resolve_conflict_correct (fs : List Py.Path) (stats : OrganizationStats)
    (dest_path : Py.Path) :
    (dest_path ∉ fs → resolve_conflict fs stats dest_path = (stats, dest_path)) ∧
    (dest_path ∈ fs → ∃ N, 1 ≤ N ∧
      resolve_conflict fs stats dest_path =
        ({ stats with conflicts_resolved := stats.conflicts_resolved + 1 },
         probe_of dest_path N) ∧
      probe_of dest_path N ∉ fs ∧
      (∀ j, 1 ≤ j → j < N → probe_of dest_path j ∈ fs)) := by
  constructor
  · intro h
    simp [resolve_conflict, h]
  · exact resolve_conflict_mem_char fs stats dest_path

/-- Witness for C1 at a concrete input: `report.pdf` and `report_1.pdf`
exist, so resolving `report.pdf` yields probe index 2 and bumps the
counter once. -/
theorem resolve_conflict_correct_witness :
    (["report.pdf".data] : Py.Path) ∈
      ([["report.pdf".data], ["report_1.pdf".data]] : List Py.Path) ∧
    (∃ N, 1 ≤ N ∧
      resolve_conflict [["report.pdf".data], ["report_1.pdf".data]] stats0
          ["report.pdf".data] =
        ({ stats0 with conflicts_resolved := stats0.conflicts_resolved + 1 },
         probe_of ["report.pdf".data] N) ∧
      probe_of ["report.pdf".data] N ∉
        ([["report.pdf".data], ["report_1.pdf".data]] : List Py.Path) ∧
      (∀ j, 1 ≤ j → j < N →
        probe_of ["report.pdf".data] j ∈
          ([["report.pdf".data], ["report_1.pdf".data]] : List Py.Path))) :=
  ⟨by decide,
   (resolve_conflict_correct [["report.pdf".data], ["report_1.pdf".data]] stats0
     ["report.pdf".data]).2 (by decide)⟩

theorem stem_append_suffix (s : List Char) : Py.stemOf s ++ Py.suffixOf s = s := by
  rcases h : Py.lastDotIdx s with _ | i
  · simp [Py.stemOf, Py.suffixOf, h]
  · by_cases hcond : 0 < i ∧ i < s.length - 1
    · simp [Py.stemOf, Py.suffixOf, h, hcond, List.take_append_drop]
    · simp [Py.stemOf, Py.suffixOf, h, hcond]

theorem natRepr_length_pos (k : Nat) : 0 < (Py.natRepr k).length := by
  unfold Py.natRepr
  split
  · simp
  · rename_i h0
    cases k with
    | zero => exact absurd rfl h0
    | succ f =>
      simp only [Py.reprAux, h0, if_false, List.length_append, List.length_cons]
      omega

/-- A probe path is never the desired path itself: its name is two
characters longer at least. -/
theorem probe_of_ne_self (dest_path : Py.Path) (k : Nat) :
    probe_of dest_path k ≠ dest_path := by
  intro h
  unfold probe_of candPath Py.join Py.parent at h
  rcases eq_or_ne dest_path [] with h0 | h0
  · rw [h0] at h
    simp at h
  · have hsplit := List.dropLast_append_getLast h0
    conv at h => rhs; rw [← hsplit]
    have h1 := List.append_cancel_left h
    have h2 : candName (Py.stemOf (Py.name dest_path)) (Py.suffixOf (Py.name dest_path)) k
        = dest_path.getLast h0 := List.singleton_injective h1
    have hname : Py.name dest_path = dest_path.getLast h0 := by
      unfold Py.name
      rw [List.getLast?_eq_getLast _ h0]
      rfl
    have hlen := congrArg List.length h2
    simp only [candName, List.length_append, List.length_cons] at hlen
    have hsum : (Py.stemOf (Py.name dest_path)).length
        + (Py.suffixOf (Py.name dest_path)).length = (Py.name dest_path).length := by
      conv_rhs => rw [← stem_append_suffix (Py.name dest_path)]
      rw [List.length_append]
    rw [← hname] at hlen
    have hpos := natRepr_length_pos k
    omega

/-- Counterexample to C7 as stated: with `report.pdf` and
`report_2.pdf` existing, the first call returns `report_1.pdf`; after
creating that result, a further call returns `report_3.pdf`, not the
next-incremented name `report_2.pdf`. -/
theorem resolve_conflict_next_name_counterexample :
    (resolve_conflict [["report.pdf".data], ["report_2.pdf".data]] stats0
        ["report.pdf".data]).2 = [("report_1.pdf").data] ∧
    (resolve_conflict
        [["report_1.pdf".data], ["report.pdf".data], ["report_2.pdf".data]] stats0
        ["report.pdf".data]).2 = [("report_3.pdf").data] ∧
    ([("report_3.pdf").data] : Py.Path) ≠ [("report_2.pdf").data] := by
  refine ⟨by decide, by decide, by decide⟩

/-- Claim C7 (amended): for a fixed existing set of paths, two calls on
the same desired path return the same path regardless of the statistics
they carry; after creating the first result, a further call returns the
first incremented name that does not exist in the enlarged set — a
higher-indexed probe, not existing there, with every lower-indexed
probe existing there — and it is the next-incremented name `N + 1`
exactly when that name does not already exist. -/
theorem resolve_conflict_idempotent (fs : List Py.Path)
    (stats1 stats2 : OrganizationStats) (dest_path : Py.Path) :
    (resolve_conflict fs stats1 dest_path).2 =
      (resolve_conflict fs stats2 dest_path).2 ∧
    (dest_path ∉ fs → ∃ M, 1 ≤ M ∧
      (resolve_conflict (dest_path :: fs) stats2 dest_path).2 = probe_of dest_path M ∧
      probe_of dest_path M ∉ dest_path :: fs ∧
      (∀ j, 1 ≤ j → j < M → probe_of dest_path j ∈ dest_path :: fs) ∧
      (M = 1 ↔ probe_of dest_path 1 ∉ fs)) ∧
    (dest_path ∈ fs → ∃ N M,
      (resolve_conflict fs stats1 dest_path).2 = probe_of dest_path N ∧
      (resolve_conflict (probe_of dest_path N :: fs) stats2 dest_path).2 =
        probe_of dest_path M ∧
      N < M ∧
      probe_of dest_path M ∉ probe_of dest_path N :: fs ∧
      (∀ j, 1 ≤ j → j < M → probe_of dest_path j ∈ probe_of dest_path N :: fs) ∧
      (M = N + 1 ↔ probe_of dest_path (N + 1) ∉ fs)) := by
  refine ⟨?_, ?_, ?_⟩
  · unfold resolve_conflict
    split <;> rfl
  · intro h
    obtain ⟨M, hM1, hM2, hM3, hM4⟩ :=
      resolve_conflict_mem_char (dest_path :: fs) stats2 dest_path (by simp)
    refine ⟨M, hM1, by rw [hM2], hM3, hM4, ?_, ?_⟩
    · intro h1
      exact fun hmem => (h1 ▸ hM3) (List.mem_cons_of_mem _ hmem)
    · intro h1
      by_contra hne
      have h2 : (1 : Nat) < M := by omega
      have := hM4 1 le_rfl h2
      rcases List.mem_cons.mp this with h3 | h3
      · exact probe_of_ne_self dest_path 1 h3
      · exact h1 h3
  · intro h
    obtain ⟨N, hN1, hN2, hN3, hN4⟩ := resolve_conflict_mem_char fs stats1 dest_path h
    obtain ⟨M, hM1, hM2, hM3, hM4⟩ :=
      resolve_conflict_mem_char (probe_of dest_path N :: fs) stats2 dest_path
        (List.mem_cons_of_mem _ h)
    have hinj : Function.Injective (probe_of dest_path) :=
      candPath_injective (Py.parent dest_path) (Py.stemOf (Py.name dest_path))
        (Py.suffixOf (Py.name dest_path))
    have hNM : N < M := by
      rcases Nat.lt_or_ge N M with h1 | h1
      · exact h1
      · exfalso
        rcases Nat.eq_or_lt_of_le h1 with h2 | h2
        · exact hM3 (h2 ▸ List.mem_cons_self _ _)
        · exact hM3 (List.mem_cons_of_mem _ (hN4 M hM1 h2))
    refine ⟨N, M, by rw [hN2], by rw [hM2], hNM, hM3, hM4, ?_, ?_⟩
    · intro h1
      exact fun hmem => (h1 ▸ hM3) (List.mem_cons_of_mem _ hmem)
    · intro hfree
      by_contra hne
      have h2 : N + 1 < M := by omega
      have := hM4 (N + 1) (by omega) h2
      rcases List.mem_cons.mp this with h3 | h3
      · exact absurd (hinj h3) (by omega)
      · exact hfree h3

/-- Witness for the amended C7 at a concrete input: `doc.txt` exists,
the first call returns `doc_1.txt`, and after creating it the next
call returns `doc_2.txt`. -/
theorem resolve_conflict_idempotent_witness :
    (["doc.txt".data] : Py.Path) ∈ ([["doc.txt".data]] : List Py.Path) ∧
    (∃ N M,
      (resolve_conflict [["doc.txt".data]] stats0 ["doc.txt".data]).2 =
        probe_of ["doc.txt".data] N ∧
      (resolve_conflict (probe_of ["doc.txt".data] N :: [["doc.txt".data]]) stats0
          ["doc.txt".data]).2 = probe_of ["doc.txt".data] M ∧
      N < M ∧
      probe_of ["doc.txt".data] M ∉
        (probe_of ["doc.txt".data] N :: [["doc.txt".data]] : List Py.Path) ∧
      (∀ j, 1 ≤ j → j < M →
        probe_of ["doc.txt".data] j ∈
          (probe_of ["doc.txt".data] N :: [["doc.txt".data]] : List Py.Path)) ∧
      (M = N + 1 ↔
        probe_of ["doc.txt".data] (N + 1) ∉ ([["doc.txt".data]] : List Py.Path))) :=
  ⟨by decide,
   (resolve_conflict_idempotent [["doc.txt".data]] stats0 stats0
     ["doc.txt".data]).2.2 (by decide)⟩

theorem find_match_append (ext : List Char) :
    ∀ pre : List (List Char × CategoryInfo), (∀ ci ∈ pre, ext ∉ ci.2.extensions) →
    ∀ rest, find_match ext (pre ++ rest) = find_match ext rest := by
  intro pre
  induction pre with
  | nil => intro _ rest; rfl
  | cons hd tl ih =>
    intro hpre rest
    obtain ⟨c, i⟩ := hd
    have hni : ext ∉ i.extensions := hpre (c, i) (List.mem_cons_self _ _)
    simp only [List.cons_append, find_match, hni, if_false]
    exact ih (fun ci hci => hpre ci (List.mem_cons_of_mem _ hci)) rest

/-- The classifier assigns the first table entry (in declared order)
whose extension list contains the file's lowercased extension. -/
theorem get_destination_of_first_match (cfg : Config) (stats : OrganizationStats)
    (file_path : Py.Path) (pre post : List (List Char × CategoryInfo))
    (category : List Char) (info : CategoryInfo)
    (htable : cfg.file_types = pre ++ (category, info) :: post)
    (hmem : file_extension file_path ∈ info.extensions)
    (hpre : ∀ ci ∈ pre, file_extension file_path ∉ ci.2.extensions) :
    get_destination_for_file cfg stats file_path =
      ({ stats with categories := bumpCategory stats.categories category },
       Py.join cfg.base_destination (info.destination.getD category)) := by
  have hfind : find_match (file_extension file_path) cfg.file_types
      = some (category, info) := by
    rw [htable, find_match_append _ pre hpre]
    simp [find_match, hmem]
  simp [get_destination_for_file, hfind]

/-- Claim C2: when an extension appears in several categories'
extension lists, classification assigns the first category of the
table's declared iteration order whose list contains it. -/
theorem first_category_wins (cfg : Config) (stats : OrganizationStats)
    (file_path : Py.Path) (pre post : List (List Char × CategoryInfo))
    (category : List Char) (info : CategoryInfo)
    (htable : cfg.file_types = pre ++ (category, info) :: post)
    (hmem : file_extension file_path ∈ info.extensions)
    (hpre : ∀ ci ∈ pre, file_extension file_path ∉ ci.2.extensions)
    (_hdup : ∃ ci ∈ post, file_extension file_path ∈ ci.2.extensions) :
    get_destination_for_file cfg stats file_path =
      ({ stats with categories := bumpCategory stats.categories category },
       Py.join cfg.base_destination (info.destination.getD category)) :=
  get_destination_of_first_match cfg stats file_path pre post category info
    htable hmem hpre

/-- A concrete table whose two categories both list `.pdf`. -/
def cfgDup : Config :=
  { file_types :=
      [("docs".data, ⟨[".pdf".data], some "Docs".data⟩),
       ("papers".data, ⟨[".pdf".data], some "Papers".data⟩)]
    base_destination := ["base".data]
    other_destination := "Other".data
    settings := ⟨false, true, true, true⟩ }

/-- Witness for C2: with the duplicate `.pdf` table, `a.pdf` goes to
the first category, `docs`. -/
theorem first_category_wins_witness :
    (cfgDup.file_types =
      [] ++ ("docs".data, (⟨[".pdf".data], some "Docs".data⟩ : CategoryInfo)) ::
        [("papers".data, ⟨[".pdf".data], some "Papers".data⟩)]) ∧
    file_extension ["a.pdf".data] ∈
      (⟨[".pdf".data], some "Docs".data⟩ : CategoryInfo).extensions ∧
    (∀ ci ∈ ([] : List (List Char × CategoryInfo)),
      file_extension ["a.pdf".data] ∉ ci.2.extensions) ∧
    (∃ ci ∈ [(("papers".data : List Char),
        (⟨[".pdf".data], some "Papers".data⟩ : CategoryInfo))],
      file_extension ["a.pdf".data] ∈ ci.2.extensions) ∧
    get_destination_for_file cfgDup stats0 ["a.pdf".data] =
      ({ stats0 with categories := bumpCategory stats0.categories "docs".data },
       Py.join cfgDup.base_destination
         ((some "Docs".data : Option (List Char)).getD "docs".data)) :=
  ⟨by decide, by decide, by decide, by decide,
   first_category_wins cfgDup stats0 ["a.pdf".data] []
     [("papers".data, ⟨[".pdf".data], some "Papers".data⟩)]
     "docs".data ⟨[".pdf".data], some "Docs".data⟩
     (by decide) (by decide) (by decide) (by decide)⟩

/-- A table listing only the uppercase extension `.PDF`. -/
def cfgUpper : Config :=
  { file_types := [("docs".data, ⟨[".PDF".data], some "Docs".data⟩)]
    base_destination := []
    other_destination := "Other".data
    settings := ⟨false, true, true, true⟩ }

/-- Counterexample to C3 as stated: a category lists `.PDF` and the
file `a.PDF` matches it up to case, yet classification sends the file
to the fallback bucket, because only the file's extension is
lowercased while the listed extension is compared verbatim. -/
theorem classification_case_counterexample :
    Py.lower (Py.suffixOf (Py.name ["a.PDF".data])) = Py.lower ".PDF".data ∧
    (get_destination_for_file cfgUpper stats0 ["a.PDF".data]).2 =
      Py.join [] "Other".data ∧
    (get_destination_for_file cfgUpper stats0 ["a.PDF".data]).2 ≠
      Py.join [] "Docs".data := by
  refine ⟨by decide, by decide, by decide⟩

/-- Claim C3 (amended): classification lowercases the file's extension
and compares it verbatim against each category's listed extensions;
hence two files with equal lowercased extensions (in particular, names
differing only in extension case) classify identically, and a file is
assigned to the first category whose extension list contains its
lowercased extension verbatim. -/
theorem classification_lowercase_exact (cfg : Config)
    (stats1 stats2 : OrganizationStats) (p1 p2 : Py.Path) :
    (file_extension p1 = file_extension p2 →
      (get_destination_for_file cfg stats1 p1).2 =
        (get_destination_for_file cfg stats2 p2).2) ∧
    (∀ pre post category info,
      cfg.file_types = pre ++ (category, info) :: post →
      file_extension p1 ∈ info.extensions →
      (∀ ci ∈ pre, file_extension p1 ∉ ci.2.extensions) →
      (get_destination_for_file cfg stats1 p1).2 =
        Py.join cfg.base_destination (info.destination.getD category)) := by
  constructor
  · intro h
    simp only [get_destination_for_file, ← h]
    cases hf : find_match (file_extension p1) cfg.file_types with
    | none => simp
    | some ci => obtain ⟨c, i⟩ := ci; simp
  · intro pre post category info htable hmem hpre
    rw [get_destination_of_first_match cfg stats1 p1 pre post category info
      htable hmem hpre]

/-- Witness for the amended C3: `a.PDF` and `a.pdf` classify to the
same destination, and `a.pdf` is assigned to the category listing
`.pdf` verbatim. -/
theorem classification_lowercase_exact_witness :
    (file_extension ["a.PDF".data] = file_extension ["a.pdf".data] ∧
      (get_destination_for_file cfgDup stats0 ["a.PDF".data]).2 =
        (get_destination_for_file cfgDup stats0 ["a.pdf".data]).2) ∧
    (cfgDup.file_types =
        [] ++ ("docs".data, (⟨[".pdf".data], some "Docs".data⟩ : CategoryInfo)) ::
          [("papers".data, ⟨[".pdf".data], some "Papers".data⟩)] ∧
      file_extension ["a.pdf".data] ∈
        (⟨[".pdf".data], some "Docs".data⟩ : CategoryInfo).extensions ∧
      (get_destination_for_file cfgDup stats0 ["a.pdf".data]).2 =
        Py.join cfgDup.base_destination
          (((⟨[".pdf".data], some "Docs".data⟩ : CategoryInfo)).destination.getD
            "docs".data)) :=
  ⟨⟨by decide,
    (classification_lowercase_exact cfgDup stats0 stats0
      ["a.PDF".data] ["a.pdf".data]).1 (by decide)⟩,
   by decide, by decide,
   (classification_lowercase_exact cfgDup stats0 stats0
      ["a.pdf".data] ["a.pdf".data]).2 []
     [("papers".data, ⟨[".pdf".data], some "Papers".data⟩)]
     "docs".data ⟨[".pdf".data], some "Docs".data⟩
     (by decide) (by decide) (by decide)⟩

/-- Counterexample to C9 as stated: classifying a file changes the
Statistics Record — the per-category counter of the winning category
is incremented. -/
theorem classifier_mutates_stats_counterexample :
    (get_destination_for_file cfgDup stats0 ["a.pdf".data]).1 ≠ stats0 ∧
    (get_destination_for_file cfgDup stats0 ["a.pdf".data]).1.categories =
      [("docs".data, 1)] := by
  refine ⟨by decide, by decide⟩

/-- Claim C9 (amended): the classifier performs no filesystem I/O (its
result is a pure function of the table and the file name: two calls
with different statistics records return the same destination), and its
only effect on the Statistics Record is incrementing the winning
category's counter — every other counter is unchanged. -/
theorem classifier_frame (cfg : Config) (stats : OrganizationStats)
    (file_path : Py.Path) :
    ∃ label,
      (get_destination_for_file cfg stats file_path).1 =
        { stats with categories := bumpCategory stats.categories label } ∧
      (get_destination_for_file cfg stats file_path).1.files_moved =
        stats.files_moved ∧
      (get_destination_for_file cfg stats file_path).1.folders_moved =
        stats.folders_moved ∧
      (get_destination_for_file cfg stats file_path).1.errors = stats.errors ∧
      (get_destination_for_file cfg stats file_path).1.skipped = stats.skipped ∧
      (get_destination_for_file cfg stats file_path).1.conflicts_resolved =
        stats.conflicts_resolved ∧
      (∀ stats2, (get_destination_for_file cfg stats2 file_path).2 =
        (get_destination_for_file cfg stats file_path).2) := by
  cases hf : find_match (file_extension file_path) cfg.file_types with
  | none =>
    refine ⟨"other".data, ?_⟩
    simp [get_destination_for_file, hf]
  | some ci =>
    obtain ⟨c, i⟩ := ci
    refine ⟨c, ?_⟩
    simp [get_destination_for_file, hf]

theorem resolve_conflict_counters (fs : List Py.Path) (stats : OrganizationStats)
    (d : Py.Path) :
    (resolve_conflict fs stats d).1.files_moved = stats.files_moved ∧
    (resolve_conflict fs stats d).1.errors = stats.errors ∧
    (resolve_conflict fs stats d).1.skipped = stats.skipped := by
  unfold resolve_conflict
  split <;> exact ⟨rfl, rfl, rfl⟩

theorem get_destination_counters (cfg : Config) (stats : OrganizationStats)
    (p : Py.Path) :
    (get_destination_for_file cfg stats p).1.files_moved = stats.files_moved ∧
    (get_destination_for_file cfg stats p).1.errors = stats.errors ∧
    (get_destination_for_file cfg stats p).1.skipped = stats.skipped := by
  cases hf : find_match (file_extension p) cfg.file_types with
  | none => simp [get_destination_for_file, hf]
  | some ci =>
    obtain ⟨c, i⟩ := ci
    simp [get_destination_for_file, hf]

/-- The statistics record after the conflict-resolution step of
`move_file_rest`, before the move itself. -/
def resolved_pair (cfg : Config) (fs : FS) (stats : OrganizationStats)
    (source destination_folder : Py.Path) : OrganizationStats × Py.Path :=
  if cfg.settings.handle_conflicts then
    resolve_conflict (all_paths fs) stats (Py.join destination_folder (Py.name source))
  else (stats, Py.join destination_folder (Py.name source))

theorem resolved_pair_counters (cfg : Config) (fs : FS) (stats : OrganizationStats)
    (source destination_folder : Py.Path) :
    (resolved_pair cfg fs stats source destination_folder).1.files_moved
      = stats.files_moved ∧
    (resolved_pair cfg fs stats source destination_folder).1.errors = stats.errors ∧
    (resolved_pair cfg fs stats source destination_folder).1.skipped
      = stats.skipped := by
  unfold resolved_pair
  split
  · exact resolve_conflict_counters _ _ _
  · exact ⟨rfl, rfl, rfl⟩

theorem move_file_rest_eq (env : Env) (cfg : Config) (fs : FS)
    (stats : OrganizationStats) (source destination_folder : Py.Path)
    (dry_run : Bool) :
    move_file_rest env cfg fs stats source destination_folder dry_run =
      (if dry_run then
        (fs, { (resolved_pair cfg fs stats source destination_folder).1 with
          files_moved :=
            (resolved_pair cfg fs stats source destination_folder).1.files_moved + 1 },
         true)
      else
        match env.moveExc source (resolved_pair cfg fs stats source destination_folder).2 with
        | some _ =>
          (fs, { (resolved_pair cfg fs stats source destination_folder).1 with
            errors :=
              (resolved_pair cfg fs stats source destination_folder).1.errors + 1 },
           false)
        | none =>
          ({ fs with files := fs.files.erase source ++
              [(resolved_pair cfg fs stats source destination_folder).2] },
           { (resolved_pair cfg fs stats source destination_folder).1 with
             files_moved :=
               (resolved_pair cfg fs stats source destination_folder).1.files_moved + 1 },
           true)) := by
  unfold move_file_rest resolved_pair
  rfl

theorem move_file_count (env : Env) (cfg : Config) (fs : FS)
    (stats : OrganizationStats) (source destination_folder : Py.Path)
    (dry_run : Bool) :
    (move_file env cfg fs stats source destination_folder dry_run).2.1.files_moved
      + (move_file env cfg fs stats source destination_folder dry_run).2.1.errors
      = stats.files_moved + stats.errors + 1 ∧
    (move_file env cfg fs stats source destination_folder dry_run).2.1.skipped
      = stats.skipped := by
  have hrest : ∀ fs1 : FS,
      (move_file_rest env cfg fs1 stats source destination_folder dry_run).2.1.files_moved
        + (move_file_rest env cfg fs1 stats source destination_folder dry_run).2.1.errors
        = stats.files_moved + stats.errors + 1 ∧
      (move_file_rest env cfg fs1 stats source destination_folder dry_run).2.1.skipped
        = stats.skipped := by
    intro fs1
    rw [move_file_rest_eq]
    obtain ⟨h1, h2, h3⟩ := resolved_pair_counters cfg fs1 stats source destination_folder
    cases dry_run with
    | true => simpa using by omega
    | false =>
      cases env.moveExc source (resolved_pair cfg fs1 stats source destination_folder).2 with
      | some e => simp only [if_false]; constructor <;> simp <;> omega
      | none => simp only [if_false]; constructor <;> simp <;> omega
  unfold move_file
  cases hcd : cfg.settings.create_directories && !dry_run with
  | false => simpa using hrest fs
  | true =>
    cases env.mkdirExc destination_folder with
    | some e => simp; omega
    | none => simpa using hrest _

theorem move_file_rest_exc_char (env : Env) (cfg : Config) (fs : FS)
    (stats : OrganizationStats) (source destination_folder : Py.Path)
    (dry_run : Bool) :
    ((∃ e, move_rest_exc env cfg fs stats source destination_folder dry_run = some e) →
      (move_file_rest env cfg fs stats source destination_folder dry_run).2.2 = false ∧
      (move_file_rest env cfg fs stats source destination_folder dry_run).2.1.errors
        = stats.errors + 1) ∧
    (move_rest_exc env cfg fs stats source destination_folder dry_run = none →
      (move_file_rest env cfg fs stats source destination_folder dry_run).2.2 = true ∧
      (move_file_rest env cfg fs stats source destination_folder dry_run).2.1.errors
        = stats.errors) := by
  obtain ⟨_, h2, _⟩ := resolved_pair_counters cfg fs stats source destination_folder
  rw [move_file_rest_eq]
  have hexc : move_rest_exc env cfg fs stats source destination_folder dry_run =
      if dry_run then none
      else env.moveExc source (resolved_pair cfg fs stats source destination_folder).2 := by
    unfold move_rest_exc resolved_pair
    rfl
  rw [hexc]
  cases dry_run with
  | true => simpa using h2
  | false =>
    cases env.moveExc source (resolved_pair cfg fs stats source destination_folder).2 with
    | some e => simp; omega
    | none => simpa using h2

/-- Exception characterization of a full `move_file` call: a raise on
the executed branch is caught, counted once in `errors`, and reported
as failure; no raise means success and an untouched error counter. -/
theorem move_file_exc_char (env : Env) (cfg : Config) (fs : FS)
    (stats : OrganizationStats) (source destination_folder : Py.Path)
    (dry_run : Bool) :
    ((∃ e, move_attempt_exc env cfg fs stats source destination_folder dry_run = some e) →
      (move_file env cfg fs stats source destination_folder dry_run).2.2 = false ∧
      (move_file env cfg fs stats source destination_folder dry_run).2.1.errors
        = stats.errors + 1) ∧
    (move_attempt_exc env cfg fs stats source destination_folder dry_run = none →
      (move_file env cfg fs stats source destination_folder dry_run).2.2 = true ∧
      (move_file env cfg fs stats source destination_folder dry_run).2.1.errors
        = stats.errors) := by
  unfold move_file move_attempt_exc
  cases hcd : cfg.settings.create_directories && !dry_run with
  | false => simpa using move_file_rest_exc_char env cfg fs stats source destination_folder dry_run
  | true =>
    cases env.mkdirExc destination_folder with
    | some e => simp
    | none =>
      simpa using
        move_file_rest_exc_char env cfg
          { fs with dirs := insert_path destination_folder fs.dirs }
          stats source destination_folder dry_run

theorem organize_files_count (env : Env) (cfg : Config) (dry_run : Bool) :
    ∀ (snapshot : List Entry) (fs : FS) (stats : OrganizationStats),
    (organize_files env cfg snapshot fs stats dry_run).2.files_moved
      + (organize_files env cfg snapshot fs stats dry_run).2.errors
      + (organize_files env cfg snapshot fs stats dry_run).2.skipped
      = stats.files_moved + stats.errors + stats.skipped
        + (snapshot.filter (·.isFile)).length := by
  intro snapshot
  induction snapshot with
  | nil => intro fs stats; simp [organize_files]
  | cons item rest ih =>
    intro fs stats
    cases hf : item.isFile with
    | true =>
      cases hs : should_skip_file cfg item.path with
      | true =>
        simp only [organize_files, hf, hs, if_true]
        rw [ih]
        simp [List.filter_cons, hf]
        omega
      | false =>
        simp only [organize_files, hf, hs, if_true, Bool.false_eq_true, if_false]
        rw [ih]
        obtain ⟨hg1, hg2, hg3⟩ := get_destination_counters cfg stats item.path
        obtain ⟨hm1, hm2⟩ :=
          move_file_count env cfg fs (get_destination_for_file cfg stats item.path).1
            item.path (get_destination_for_file cfg stats item.path).2 dry_run
        simp [List.filter_cons, hf]
        omega
    | false =>
      simp only [organize_files, hf, Bool.false_eq_true, if_false]
      rw [ih]
      simp [List.filter_cons, hf]

/-- Claim C4: any exception raised during a single move (at directory
creation or at the underlying move, of any of the three caught kinds)
is caught locally, increments the error counter by exactly one, and
makes the move report failure; without a raise the move reports
success and leaves the error counter untouched; and a batch pass
accounts for every file entry of its snapshot as moved, errored, or
skipped — it never aborts early. -/
theorem move_errors_caught (env : Env) (cfg : Config) (fs : FS)
    (stats : OrganizationStats) (source destination_folder : Py.Path)
    (dry_run : Bool) (snapshot : List Entry) (fs_b : FS)
    (stats_b : OrganizationStats) :
    ((∃ e, move_attempt_exc env cfg fs stats source destination_folder dry_run = some e) →
      (move_file env cfg fs stats source destination_folder dry_run).2.2 = false ∧
      (move_file env cfg fs stats source destination_folder dry_run).2.1.errors
        = stats.errors + 1) ∧
    (move_attempt_exc env cfg fs stats source destination_folder dry_run = none →
      (move_file env cfg fs stats source destination_folder dry_run).2.2 = true ∧
      (move_file env cfg fs stats source destination_folder dry_run).2.1.errors
        = stats.errors) ∧
    ((organize_files env cfg snapshot fs_b stats_b dry_run).2.files_moved
      + (organize_files env cfg snapshot fs_b stats_b dry_run).2.errors
      + (organize_files env cfg snapshot fs_b stats_b dry_run).2.skipped
      = stats_b.files_moved + stats_b.errors + stats_b.skipped
        + (snapshot.filter (·.isFile)).length) :=
  ⟨(move_file_exc_char env cfg fs stats source destination_folder dry_run).1,
   (move_file_exc_char env cfg fs stats source destination_folder dry_run).2,
   organize_files_count env cfg dry_run snapshot fs_b stats_b⟩

/-- An environment in which every move raises `PermissionError` and
directory creation succeeds. -/
def envPermFail : Env :=
  { mkdirExc := fun _ => none
    moveExc := fun _ _ => some .permissionError
    fileStable := fun _ => true }

/-- An environment in which nothing ever raises and every file is
reported size-stable. -/
def envClean : Env :=
  { mkdirExc := fun _ => none
    moveExc := fun _ _ => none
    fileStable := fun _ => true }

/-- A one-category configuration used for concrete runs. -/
def cfgPdf : Config :=
  { file_types := [("pdf".data, ⟨[".pdf".data], some "PDF".data⟩)]
    base_destination := ["base".data]
    other_destination := "Other".data
    settings := ⟨false, true, true, true⟩ }

/-- Witness for C4: a live move of `a.pdf` under an environment whose
move raises `PermissionError` reports failure and one error. -/
theorem move_errors_caught_witness :
    ((∃ e, move_attempt_exc envPermFail cfgPdf ⟨[["a.pdf".data]], []⟩ stats0
        ["a.pdf".data] ["base".data, "PDF".data] false = some e) ∧
      (move_file envPermFail cfgPdf ⟨[["a.pdf".data]], []⟩ stats0
        ["a.pdf".data] ["base".data, "PDF".data] false).2.2 = false ∧
      (move_file envPermFail cfgPdf ⟨[["a.pdf".data]], []⟩ stats0
        ["a.pdf".data] ["base".data, "PDF".data] false).2.1.errors
        = stats0.errors + 1) ∧
    ((organize_files envPermFail cfgPdf [⟨["a.pdf".data], true⟩, ⟨["b.txt".data], true⟩]
        ⟨[["a.pdf".data], ["b.txt".data]], []⟩ stats0 false).2.files_moved
      + (organize_files envPermFail cfgPdf [⟨["a.pdf".data], true⟩, ⟨["b.txt".data], true⟩]
          ⟨[["a.pdf".data], ["b.txt".data]], []⟩ stats0 false).2.errors
      + (organize_files envPermFail cfgPdf [⟨["a.pdf".data], true⟩, ⟨["b.txt".data], true⟩]
          ⟨[["a.pdf".data], ["b.txt".data]], []⟩ stats0 false).2.skipped
      = stats0.files_moved + stats0.errors + stats0.skipped
        + (([⟨["a.pdf".data], true⟩, ⟨["b.txt".data], true⟩] : List Entry).filter
            (·.isFile)).length) :=
  ⟨⟨⟨.permissionError, by decide⟩,
    (move_errors_caught envPermFail cfgPdf ⟨[["a.pdf".data]], []⟩ stats0
      ["a.pdf".data] ["base".data, "PDF".data] false [] ⟨[], []⟩ stats0).1
      ⟨.permissionError, by decide⟩⟩,
   (move_errors_caught envPermFail cfgPdf ⟨[["a.pdf".data]], []⟩ stats0
      ["a.pdf".data] ["base".data, "PDF".data] false
      [⟨["a.pdf".data], true⟩, ⟨["b.txt".data], true⟩]
      ⟨[["a.pdf".data], ["b.txt".data]], []⟩ stats0).2.2⟩

/-- In dry-run mode a move performs no filesystem mutation at all, yet
still runs the conflict-resolution step and bumps the moved counter. -/
theorem move_file_dry (env : Env) (cfg : Config) (fs : FS)
    (stats : OrganizationStats) (source destination_folder : Py.Path) :
    move_file env cfg fs stats source destination_folder true =
      (fs, { (resolved_pair cfg fs stats source destination_folder).1 with
        files_moved :=
          (resolved_pair cfg fs stats source destination_folder).1.files_moved + 1 },
       true) := by
  unfold move_file
  simp only [Bool.not_true, Bool.and_false, Bool.false_eq_true, if_false]
  rw [move_file_rest_eq]
  simp

theorem move_file_clean (env : Env) (cfg : Config) (fs : FS)
    (stats : OrganizationStats) (source destination_folder : Py.Path)
    (hmk : env.mkdirExc destination_folder = none)
    (hmv : ∀ s d, env.moveExc s d = none) :
    (move_file env cfg fs stats source destination_folder false).2.1.files_moved
      = stats.files_moved + 1 := by
  have hrest : ∀ fs1 : FS,
      (move_file_rest env cfg fs1 stats source destination_folder false).2.1.files_moved
        = stats.files_moved + 1 := by
    intro fs1
    rw [move_file_rest_eq]
    obtain ⟨h1, _, _⟩ := resolved_pair_counters cfg fs1 stats source destination_folder
    rw [hmv source (resolved_pair cfg fs1 stats source destination_folder).2]
    simpa using h1
  unfold move_file
  cases hc : cfg.settings.create_directories with
  | false => simpa using hrest fs
  | true =>
    rw [hmk]
    simpa using hrest _

theorem organize_files_dry (env : Env) (cfg : Config) :
    ∀ (snapshot : List Entry) (fs : FS) (stats : OrganizationStats),
    (organize_files env cfg snapshot fs stats true).1 = fs ∧
    (organize_files env cfg snapshot fs stats true).2.files_moved
      = stats.files_moved
        + (snapshot.filter (fun e => e.isFile && !should_skip_file cfg e.path)).length := by
  intro snapshot
  induction snapshot with
  | nil => intro fs stats; simp [organize_files]
  | cons item rest ih =>
    intro fs stats
    cases hf : item.isFile with
    | true =>
      cases hs : should_skip_file cfg item.path with
      | true =>
        simp only [organize_files, hf, hs, if_true]
        obtain ⟨ih1, ih2⟩ := ih fs { stats with skipped := stats.skipped + 1 }
        refine ⟨ih1, ?_⟩
        rw [ih2]
        simp [List.filter_cons, hf, hs]
      | false =>
        simp only [organize_files, hf, hs, if_true, Bool.false_eq_true, if_false]
        rw [move_file_dry]
        obtain ⟨hg1, _, _⟩ :=
          get_destination_counters cfg stats item.path
        obtain ⟨hr1, _, _⟩ :=
          resolved_pair_counters cfg fs (get_destination_for_file cfg stats item.path).1
            item.path (get_destination_for_file cfg stats item.path).2
        obtain ⟨ih1, ih2⟩ := ih fs _
        refine ⟨ih1, ?_⟩
        rw [ih2]
        simp only [List.filter_cons, hf, hs]
        simp
        omega
    | false =>
      simp only [organize_files, hf, Bool.false_eq_true, if_false]
      obtain ⟨ih1, ih2⟩ := ih fs stats
      refine ⟨ih1, ?_⟩
      rw [ih2]
      simp [List.filter_cons, hf]

theorem organize_files_live_clean (env : Env) (cfg : Config)
    (hmk : ∀ d, env.mkdirExc d = none) (hmv : ∀ s d, env.moveExc s d = none) :
    ∀ (snapshot : List Entry) (fs : FS) (stats : OrganizationStats),
    (organize_files env cfg snapshot fs stats false).2.files_moved
      = stats.files_moved
        + (snapshot.filter (fun e => e.isFile && !should_skip_file cfg e.path)).length := by
  intro snapshot
  induction snapshot with
  | nil => intro fs stats; simp [organize_files]
  | cons item rest ih =>
    intro fs stats
    cases hf : item.isFile with
    | true =>
      cases hs : should_skip_file cfg item.path with
      | true =>
        simp only [organize_files, hf, hs, if_true]
        rw [ih]
        simp [List.filter_cons, hf, hs]
      | false =>
        simp only [organize_files, hf, hs, if_true, Bool.false_eq_true, if_false]
        rw [ih]
        obtain ⟨hg1, _, _⟩ := get_destination_counters cfg stats item.path
        have hm := move_file_clean env cfg fs
          (get_destination_for_file cfg stats item.path).1 item.path
          (get_destination_for_file cfg stats item.path).2
          (hmk _) hmv
        simp only [List.filter_cons, hf, hs]
        simp
        omega
    | false =>
      simp only [organize_files, hf, Bool.false_eq_true, if_false]
      rw [ih]
      simp [List.filter_cons, hf]

/-- Claim C5: a dry-run pass performs no filesystem mutation — the
filesystem state (files and directories) is returned unchanged — yet
each single dry move still goes through the conflict-resolution step
and bumps the moved counter; the pass increments the moved counter
once per processed (non-skipped) file entry, the same final value a
live run on the same inputs produces when no move raises. -/
theorem dry_run_no_mutation (env : Env) (cfg : Config) (snapshot : List Entry)
    (fs : FS) (stats : OrganizationStats) :
    (∀ (fs' : FS) (stats' : OrganizationStats) (source dF : Py.Path),
      move_file env cfg fs' stats' source dF true =
        (fs', { (resolved_pair cfg fs' stats' source dF).1 with
          files_moved := (resolved_pair cfg fs' stats' source dF).1.files_moved + 1 },
         true)) ∧
    (organize_files env cfg snapshot fs stats true).1 = fs ∧
    (organize_files env cfg snapshot fs stats true).2.files_moved
      = stats.files_moved
        + (snapshot.filter (fun e => e.isFile && !should_skip_file cfg e.path)).length ∧
    ((∀ d, env.mkdirExc d = none) → (∀ s d, env.moveExc s d = none) →
      (organize_files env cfg snapshot fs stats false).2.files_moved
        = (organize_files env cfg snapshot fs stats true).2.files_moved) := by
  obtain ⟨h1, h2⟩ := organize_files_dry env cfg snapshot fs stats
  refine ⟨fun fs' stats' source dF => move_file_dry env cfg fs' stats' source dF,
    h1, h2, fun hmk hmv => ?_⟩
  rw [organize_files_live_clean env cfg hmk hmv snapshot fs stats, h2]

/-- Witness for C5 on a concrete snapshot: one `a.pdf` file, clean
environment — the dry pass leaves the filesystem untouched and counts
one move, matching the live pass. -/
theorem dry_run_no_mutation_witness :
    (organize_files envClean cfgPdf [⟨["a.pdf".data], true⟩]
      ⟨[["a.pdf".data]], []⟩ stats0 true).1 = ⟨[["a.pdf".data]], []⟩ ∧
    (organize_files envClean cfgPdf [⟨["a.pdf".data], true⟩]
      ⟨[["a.pdf".data]], []⟩ stats0 true).2.files_moved
      = stats0.files_moved
        + (([⟨["a.pdf".data], true⟩] : List Entry).filter
            (fun e => e.isFile && !should_skip_file cfgPdf e.path)).length ∧
    (organize_files envClean cfgPdf [⟨["a.pdf".data], true⟩]
      ⟨[["a.pdf".data]], []⟩ stats0 false).2.files_moved
      = (organize_files envClean cfgPdf [⟨["a.pdf".data], true⟩]
          ⟨[["a.pdf".data]], []⟩ stats0 true).2.files_moved :=
  ⟨(dry_run_no_mutation envClean cfgPdf [⟨["a.pdf".data], true⟩]
      ⟨[["a.pdf".data]], []⟩ stats0).2.1,
   (dry_run_no_mutation envClean cfgPdf [⟨["a.pdf".data], true⟩]
      ⟨[["a.pdf".data]], []⟩ stats0).2.2.1,
   (dry_run_no_mutation envClean cfgPdf [⟨["a.pdf".data], true⟩]
      ⟨[["a.pdf".data]], []⟩ stats0).2.2.2 (fun _ => rfl) (fun _ _ => rfl)⟩

theorem is_compressed_folder_iff (cfg : Config) (folder_name : List Char)
    (l : List Entry) :
    is_compressed_folder cfg folder_name l = true ↔
      (Py.lower (Py.suffixOf folder_name) ∈ compressed_extensions cfg ∨
       ∃ item ∈ l, item.isFile = true ∧
         Py.lower (Py.suffixOf (Py.name item.path)) ∈ compressed_extensions cfg) := by
  by_cases hn : Py.lower (Py.suffixOf folder_name) ∈ compressed_extensions cfg
  · simp [is_compressed_folder, hn]
  · simp [is_compressed_folder, hn, List.any_eq_true, Bool.and_eq_true,
      decide_eq_true_eq]

/-- Claim C8: the compressed-folder predicate holds exactly when the
folder's own name carries a compressed extension or the recursive scan
contains a compressed file; when a traversal error interrupts the scan
after `k` yielded entries, the predicate is still total (no raise
propagates), a `true` verdict is never a false positive with respect
to the folder's full contents, and an interrupted scan with no match
before the error returns `false`. -/
theorem is_compressed_folder_correct (cfg : Config) (folder_name : List Char)
    (items : List Entry) (k : Nat) :
    (is_compressed_folder cfg folder_name items = true ↔
      (Py.lower (Py.suffixOf folder_name) ∈ compressed_extensions cfg ∨
       ∃ item ∈ items, item.isFile = true ∧
         Py.lower (Py.suffixOf (Py.name item.path)) ∈ compressed_extensions cfg)) ∧
    (is_compressed_folder cfg folder_name (items.take k) = true →
      (Py.lower (Py.suffixOf folder_name) ∈ compressed_extensions cfg ∨
       ∃ item ∈ items, item.isFile = true ∧
         Py.lower (Py.suffixOf (Py.name item.path)) ∈ compressed_extensions cfg)) ∧
    (Py.lower (Py.suffixOf folder_name) ∉ compressed_extensions cfg →
      (∀ item ∈ items.take k, item.isFile = true →
        Py.lower (Py.suffixOf (Py.name item.path)) ∉ compressed_extensions cfg) →
      is_compressed_folder cfg folder_name (items.take k) = false) := by
  refine ⟨is_compressed_folder_iff cfg folder_name items, ?_, ?_⟩
  · intro h
    rcases (is_compressed_folder_iff cfg folder_name (items.take k)).mp h with h1 | h1
    · exact Or.inl h1
    · obtain ⟨item, hmem, hfile, hext⟩ := h1
      exact Or.inr ⟨item, List.mem_of_mem_take hmem, hfile, hext⟩
  · intro hn hall
    rw [Bool.eq_false_iff]
    intro h
    rcases (is_compressed_folder_iff cfg folder_name (items.take k)).mp h with h1 | h1
    · exact hn h1
    · obtain ⟨item, hmem, hfile, hext⟩ := h1
      exact hall item hmem hfile hext

/-- A configuration with a compressed category, for the C8 witness. -/
def cfgZip : Config :=
  { file_types :=
      [("pdf".data, ⟨[".pdf".data], some "PDF".data⟩),
       ("compressed".data, ⟨[".zip".data, ".rar".data], some "Compressed".data⟩)]
    base_destination := ["base".data]
    other_destination := "Other".data
    settings := ⟨false, true, true, true⟩ }

/-- Witness for C8: a folder named `stuff` containing `data.zip` is
compressed when fully scanned; a scan interrupted before reaching
`data.zip` returns `false`. -/
theorem is_compressed_folder_correct_witness :
    (is_compressed_folder cfgZip "stuff".data
        [⟨["notes.txt".data], true⟩, ⟨["data.zip".data], true⟩] = true ↔
      (Py.lower (Py.suffixOf "stuff".data) ∈ compressed_extensions cfgZip ∨
       ∃ item ∈ [(⟨["notes.txt".data], true⟩ : Entry), ⟨["data.zip".data], true⟩],
         item.isFile = true ∧
         Py.lower (Py.suffixOf (Py.name item.path)) ∈ compressed_extensions cfgZip)) ∧
    (Py.lower (Py.suffixOf "stuff".data) ∉ compressed_extensions cfgZip ∧
     is_compressed_folder cfgZip "stuff".data
       ([(⟨["notes.txt".data], true⟩ : Entry), ⟨["data.zip".data], true⟩].take 1)
       = false) :=
  ⟨(is_compressed_folder_correct cfgZip "stuff".data
      [⟨["notes.txt".data], true⟩, ⟨["data.zip".data], true⟩] 1).1,
   by decide,
   (is_compressed_folder_correct cfgZip "stuff".data
      [⟨["notes.txt".data], true⟩, ⟨["data.zip".data], true⟩] 1).2.2
     (by decide) (by decide)⟩

end Organizer

namespace Watch

theorem organize_file_processing (env : Organizer.Env) (cfg : Organizer.Config)
    (st : WatchState) (p : Py.Path) :
    (organize_file env cfg st p).processing = st.processing := by
  unfold organize_file
  cases h1 : Organizer.exists_in st.fs p with
  | false => simp
  | true =>
    cases h2 : Organizer.should_skip_file cfg p with
    | false => simp [h1, h2]
    | true => simp [h1, h2]

theorem on_created_processing (env : Organizer.Env) (cfg : Organizer.Config)
    (st : WatchState) (event : Event) :
    (on_created env cfg st event).processing = st.processing := by
  unfold on_created
  cases h1 : event.is_directory with
  | true => simp
  | false =>
    cases h2 : is_temporary_file event.src_path with
    | true => simp
    | false =>
      by_cases h3 : event.src_path ∈ st.processing
      · simp [h3]
      · simp only [h3, Bool.false_eq_true, if_false]
        rw [organize_file_processing]
        exact List.erase_cons_head event.src_path st.processing

theorem on_modified_processing (env : Organizer.Env) (cfg : Organizer.Config)
    (st : WatchState) (event : Event) :
    (on_modified env cfg st event).processing = st.processing := by
  unfold on_modified
  cases h1 : event.is_directory with
  | true => simp
  | false =>
    cases h2 : is_temporary_file event.src_path with
    | true => simp
    | false =>
      cases h3 : Organizer.exists_in st.fs event.src_path with
      | false => simp
      | true =>
        cases h4 : env.fileStable event.src_path with
        | false => simp
        | true =>
          by_cases h5 : event.src_path ∈ st.processing
          · simp [h5]
          · simp only [h5, Bool.false_eq_true, if_false, if_true]
            rw [organize_file_processing]
            exact List.erase_cons_head event.src_path st.processing

/-- Claim C6: a handled path enters the Processing Set before the
per-item organize operation and is removed unconditionally afterwards
(the non-guarded branch of `on_created` is exactly
add / organize / discard); every handler returns the Processing Set to
its pre-event value, so over any sequence of delivered events a set
that starts empty is empty again once every handler has returned. -/
theorem processing_set_never_leaks (env : Organizer.Env) (cfg : Organizer.Config) :
    (∀ (st : WatchState) (event : Event),
      event.is_directory = false → is_temporary_file event.src_path = false →
      event.src_path ∉ st.processing →
      on_created env cfg st event =
        { organize_file env cfg
            { st with processing := event.src_path :: st.processing } event.src_path with
          processing :=
            ((organize_file env cfg
              { st with processing := event.src_path :: st.processing }
              event.src_path).processing).erase event.src_path }) ∧
    (∀ (st : WatchState) (event : Event),
      (on_created env cfg st event).processing = st.processing) ∧
    (∀ (st : WatchState) (event : Event),
      (on_modified env cfg st event).processing = st.processing) ∧
    (∀ (events : List Event) (st : WatchState),
      (events.foldl (handle_event env cfg) st).processing = st.processing) ∧
    (∀ (events : List Event) (st : WatchState), st.processing = [] →
      (events.foldl (handle_event env cfg) st).processing = []) := by
  have hfold : ∀ (events : List Event) (st : WatchState),
      (events.foldl (handle_event env cfg) st).processing = st.processing := by
    intro events
    induction events with
    | nil => intro st; rfl
    | cons ev rest ih =>
      intro st
      rw [List.foldl_cons, ih]
      cases hk : ev.kind with
      | created => simp [handle_event, hk, on_created_processing]
      | modified => simp [handle_event, hk, on_modified_processing]
  refine ⟨?_, fun st event => on_created_processing env cfg st event,
    fun st event => on_modified_processing env cfg st event, hfold,
    fun events st h => by rw [hfold, h]⟩
  intro st event h1 h2 h3
  unfold on_created
  simp [h1, h2, h3]

/-- Witness for C6: the debounce scenario — two creation events for
the same `a.pdf` delivered in sequence leave the Processing Set empty,
and the file was moved exactly once. -/
theorem processing_set_never_leaks_witness :
    (([⟨.created, ["a.pdf".data], false⟩, ⟨.created, ["a.pdf".data], false⟩] :
        List Event).foldl
      (handle_event Organizer.envClean Organizer.cfgPdf)
      ⟨⟨[["a.pdf".data]], []⟩, Organizer.stats0, []⟩).processing = [] ∧
    (([⟨.created, ["a.pdf".data], false⟩, ⟨.created, ["a.pdf".data], false⟩] :
        List Event).foldl
      (handle_event Organizer.envClean Organizer.cfgPdf)
      ⟨⟨[["a.pdf".data]], []⟩, Organizer.stats0, []⟩).stats.files_moved = 1 :=
  ⟨(processing_set_never_leaks Organizer.envClean Organizer.cfgPdf).2.2.2.2
    [⟨.created, ["a.pdf".data], false⟩, ⟨.created, ["a.pdf".data], false⟩]
    ⟨⟨[["a.pdf".data]], []⟩, Organizer.stats0, []⟩ rfl,
   by decide⟩

/-- Claim C10: the event-driven organize operation invokes the mover
with dry-run fixed to `false`: its behaviour is invariant under the
configuration's `dry_run` toggle (which only feeds the batch path's
effective flag), and with the toggle set it still mutates the
filesystem — here `a.pdf` really moves. -/
theorem watch_ignores_dry_run_toggle (env : Organizer.Env) (cfg : Organizer.Config)
    (st : WatchState) (p : Py.Path) (b : Bool) :
    organize_file env (set_dry_run cfg b) st p = organize_file env cfg st p ∧
    Organizer.main_effective_dry_run false cfg = cfg.settings.dry_run ∧
    (organize_file Organizer.envClean (set_dry_run Organizer.cfgPdf true)
        ⟨⟨[["a.pdf".data]], []⟩, Organizer.stats0, []⟩ ["a.pdf".data]).fs.files =
      [["base".data, "PDF".data, "a.pdf".data]] := by
  refine ⟨rfl, ?_, by decide⟩
  simp [Organizer.main_effective_dry_run]

end Watch
